import Mathlib

/-!
Verification of the eth-devnet load generator (`loadgen/loadgen.py`) and
controller (`controller/main.py`) against their natural-language spec.

The Python source is shallowly embedded: pure computations become Lean
functions over `ℕ`/`ℤ`/`ℚ`; the metric side effects of a call become an
explicit list of events; the mutable counters of the transport become
explicit state threaded through a trace of atomic operations.  The asyncio
runtime is single-threaded and cooperative: code between two `await`
suspension points runs atomically, so operations such as `_rpc_counter += 1`
and the body of `drain_rpc_counter` are modelled as single atomic steps,
and the lock-protected id assignment in `Rpc.call` serializes concurrent
callers into a sequence of atomic increments.
-/

/-! ### RpcTransport: request-id assignment (`Rpc.call`, lines 58-60)

Inside `async with self._lock`, each call performs `self._id += 1` and reads
`rid = self._id`.  The lock serializes all concurrent callers, so any
interleaving of N callers is a sequence of N atomic increment-and-read
steps on the shared `_id` counter, which starts at 0 (`__init__`). -/

/-- One lock-protected critical section of `Rpc.call`:
`self._id += 1; rid = self._id`.  Input: current `_id`; output:
(new `_id`, assigned request id `rid`). -/
def call_assign_id (id0 : ℕ) : ℕ × ℕ :=
  (id0 + 1, id0 + 1)

/-- The ids assigned by `n` consecutive (lock-serialized) invocations of
`Rpc.call`, starting from `_id = s`, in lock-acquisition order. -/
def assigned_ids : ℕ → ℕ → List ℕ
  | _, 0 => []
  | s, n + 1 =>
    let p := call_assign_id s
    p.2 :: assigned_ids p.1 n

/-- Initial request-id counter value: `Rpc.__init__` sets `self._id = 0`. -/
def rpc_init_id : ℕ := 0

theorem assigned_ids_eq_range' (s n : ℕ) :
    assigned_ids s n = List.range' (s + 1) n := by
  induction n generalizing s with
  | zero => rfl
  | succ n ih =>
    simp [assigned_ids, call_assign_id, List.range'_succ, ih]

/-- C2: starting from a fresh transport, N lock-serialized id assignments
(any interleaving of concurrent callers is such a serialization) produce
exactly the ids 1, 2, …, N: each id is one more than the previous, there
are no duplicates and no gaps, so no two in-flight requests share an id. -/
theorem rpc_ids_exactly_one_to_n (n : ℕ) :
    assigned_ids rpc_init_id n = List.range' 1 n ∧
    (assigned_ids rpc_init_id n).Nodup ∧
    ∀ k : ℕ, ∀ hk : k < n, (assigned_ids rpc_init_id n).get ⟨k, by
      simpa [assigned_ids_eq_range' rpc_init_id n] using hk⟩ = k + 1 := by
  refine ⟨assigned_ids_eq_range' 0 n, ?_, ?_⟩
  · rw [show rpc_init_id = 0 from rfl, assigned_ids_eq_range' 0 n]
    exact List.nodup_range' _ _
  · intro k hk
    simp [rpc_init_id, assigned_ids_eq_range' 0 n, List.getElem_range', Nat.add_comm]

/-- Witness for C2 at n = 4: the assigned ids are exactly [1, 2, 3, 4]. -/
theorem rpc_ids_exactly_one_to_n_witness :
    assigned_ids rpc_init_id 4 = [1, 2, 3, 4] ∧
    (assigned_ids rpc_init_id 4).Nodup ∧
    (assigned_ids rpc_init_id 4).get ⟨2, by decide⟩ = 3 := by
  have h := rpc_ids_exactly_one_to_n 4
  exact ⟨by rw [h.1]; decide, h.2.1, h.2.2 2 (by decide)⟩

/-! ### TransactionWorker: fee computation (`send_tx`, lines 103-120)

`send_tx` fetches the tip estimate, floors it at 1 gwei, doubles it for the
max fee, and submits with a fixed 21000 gas limit.  The numeric fields of
the submitted transaction parameters are embedded here (the hex encoding
`hex(...)` is a bijection on naturals and is dropped). -/

/-- Numeric fields of the single params object `send_tx` submits. -/
structure TxParams where
  gas : ℕ
  maxPriorityFeePerGas : ℕ
  maxFeePerGas : ℕ
deriving DecidableEq, Repr

/-- Fee computation and params construction of `send_tx`, from the parsed tip
estimate `tip_wei`:
`priority = max(tip_wei, 1_000_000_000)`, `maxfee = priority * 2`,
`gas = 21000` (lines 105-113). -/
def send_tx_params (tip_wei : ℕ) : TxParams :=
  let priority := max tip_wei 1000000000
  let maxfee := priority * 2
  { gas := 21000
    maxPriorityFeePerGas := priority
    maxFeePerGas := maxfee }

/-- C7: for every fee estimate `e`, the submitted transaction carries
`maxPriorityFeePerGas = max e 10^9`, `maxFeePerGas = 2 * max e 10^9` and a
fixed gas limit of 21000; in particular an estimate of 500,000,000 is
floored to a priority fee of 10^9 and a max fee of 2·10^9. -/
theorem send_tx_fee_fields (e : ℕ) :
    (send_tx_params e).maxPriorityFeePerGas = max e (10 ^ 9) ∧
    (send_tx_params e).maxFeePerGas = 2 * max e (10 ^ 9) ∧
    (send_tx_params e).gas = 21000 ∧
    (send_tx_params 500000000).maxPriorityFeePerGas = 1000000000 ∧
    (send_tx_params 500000000).maxFeePerGas = 2000000000 := by
  refine ⟨?_, ?_, rfl, by decide, by decide⟩
  · simp [send_tx_params]
  · simp [send_tx_params, Nat.mul_comm]

/-! ### RpcTransport: metric effects of one `Rpc.call` (lines 57-78)

The body of `call` increments `RPC_REQ.labels(method)` and `_rpc_counter`
before the `try`, then inside the `try` posts the request; once the post
has returned it observes latency (line 68), then checks the HTTP status,
decodes JSON, and checks for a JSON-RPC `error` member, each of which can
raise.  The `except` handler (line 75-78) observes latency again and
re-raises.  Each invocation is classified by which step, if any, failed. -/

/-- Outcome of one `Rpc.call` invocation: the HTTP post itself failed
(transport error before line 67 runs), `raise_for_status` failed,
`r.json()` failed (decode error), the response carried a JSON-RPC `error`
member, or the call succeeded. -/
inductive CallOutcome
  | postFail
  | httpStatusFail
  | decodeFail
  | rpcError
  | ok
deriving DecidableEq, Repr

/-- One metric side effect of `Rpc.call`, labelled by method where the
underlying Prometheus series is labelled. -/
inductive MetricEvent
  | reqInc (method : String)
  | rpcCounterInc
  | latObs (method : String)
deriving DecidableEq, Repr

/-- The `try` body of `Rpc.call` after the post statement is reached
(lines 66-74): events it emits and whether it raised.  When the post
itself raises, no event of the body has run; otherwise the latency
observation at line 68 runs first, and the later steps
(`raise_for_status`, `r.json()`, the `error` check) may raise after it. -/
def call_try_body (method : String) : CallOutcome → List MetricEvent × Bool
  | .postFail => ([], true)
  | .httpStatusFail => ([.latObs method], true)
  | .decodeFail => ([.latObs method], true)
  | .rpcError => ([.latObs method], true)
  | .ok => ([.latObs method], false)

/-- All metric events of one `Rpc.call` invocation in program order, and
whether the call raised to its caller: the two unconditional increments
(lines 62-63), the `try` body, and — on any raise — the `except` handler's
latency observation at line 77 before re-raising. -/
def call_events (method : String) (o : CallOutcome) : List MetricEvent × Bool :=
  let pre : List MetricEvent := [.reqInc method, .rpcCounterInc]
  let body := call_try_body method o
  if body.2 then (pre ++ body.1 ++ [.latObs method], true)
  else (pre ++ body.1, false)

/-- C1 (counterexample evaluation): on an invocation whose response carries
a JSON-RPC `error` member, `Rpc.call` records TWO latency observations for
the method — one at line 68 before the error check raises, one in the
`except` handler at line 77 — while the claim requires exactly one; the
same double observation happens for HTTP-status and decode failures.  The
method's request counter is still incremented exactly once. -/
theorem call_rpc_error_two_latency_observations :
    ((call_events "eth_call" .rpcError).1.count (.latObs "eth_call") = 2 ∧
      (call_events "eth_call" .httpStatusFail).1.count (.latObs "eth_call") = 2 ∧
      (call_events "eth_call" .decodeFail).1.count (.latObs "eth_call") = 2 ∧
      (call_events "eth_call" .ok).1.count (.latObs "eth_call") = 1 ∧
      (call_events "eth_call" .postFail).1.count (.latObs "eth_call") = 1) ∧
    (∀ o : CallOutcome, (call_events "eth_call" o).1.count (.reqInc "eth_call") = 1) := by
  constructor
  · refine ⟨by decide, by decide, by decide, by decide, by decide⟩
  · intro o
    cases o <;> decide

/-! ### TransactionWorker: counter discipline of `send_tx` (lines 99-125)
and the dispatch unit of work `one` (lines 222-227)

`send_tx` increments `TX_SENT` first, then inside a `try` fetches the fee
estimate and submits the transaction (either RPC call can raise), then
increments `TX_OK`; the `except` handler increments `TX_ERR` and
re-raises.  The dispatch unit `one` wraps `send_tx` in `try/except: pass`,
swallowing any failure. -/

/-- Outcome of one `send_tx` invocation: the fee-estimation call failed,
the submission call failed, or both succeeded. -/
inductive TxOutcome
  | feeFail
  | submitFail
  | ok
deriving DecidableEq, Repr

/-- One observable step of `send_tx`: a counter increment or one of its
two RPC calls. -/
inductive TxEvent
  | sentInc
  | feeFetch
  | submit
  | okInc
  | errInc
deriving DecidableEq, Repr

/-- The `try` body of `send_tx` (lines 102-121): the fee fetch, then the
submission, then `TX_OK.inc()`; each RPC call may raise, cutting the
sequence short. -/
def send_tx_try_body : TxOutcome → List TxEvent × Bool
  | .feeFail => ([.feeFetch], true)
  | .submitFail => ([.feeFetch, .submit], true)
  | .ok => ([.feeFetch, .submit, .okInc], false)

/-- All observable steps of one `send_tx` invocation in program order and
whether it raised: `TX_SENT.inc()` first (line 100), then the `try` body,
and — on any raise — `TX_ERR.inc()` in the handler (line 123) before the
re-raise (line 125). -/
def send_tx_events (o : TxOutcome) : List TxEvent × Bool :=
  let body := send_tx_try_body o
  if body.2 then (.sentInc :: body.1 ++ [.errInc], true)
  else (.sentInc :: body.1, false)

/-- The dispatch unit of work `one` (lines 222-227): it runs `send_tx`
under `try/except Exception: pass`, so it emits the same steps but never
raises to the dispatch loop. -/
def one_events (o : TxOutcome) : List TxEvent × Bool :=
  ((send_tx_events o).1, false)

/-- C8: every `send_tx` invocation increments the attempted counter
exactly once and as its very first step, before any fee fetch or
submission; it increments the ok counter exactly on success and the error
counter exactly on failure (one of the two, never both); it raises to its
caller exactly on failure; and the dispatch unit of work `one` performs
the same steps but never raises to the dispatch loop. -/
theorem send_tx_counter_discipline (o : TxOutcome) :
    (send_tx_events o).1.count .sentInc = 1 ∧
    (send_tx_events o).1.head? = some .sentInc ∧
    (send_tx_events o).1.count .okInc = (if o = .ok then 1 else 0) ∧
    (send_tx_events o).1.count .errInc = (if o = .ok then 0 else 1) ∧
    (send_tx_events o).2 = (if o = .ok then false else true) ∧
    (one_events o).1 = (send_tx_events o).1 ∧
    (one_events o).2 = false := by
  cases o <;> decide


/-! ### MetricsSampler: window gauges (`sampler`, lines 148-159)

Each window the sampler reads the success/error counters, diffs them
against the previous snapshot, and sets the achieved-TPS and failure-rate
gauges.  Counters and the window length are embedded as rationals. -/

/-- The pair of gauge values one sampler window publishes (lines 152-158):
`okd = ok - last_ok`, `errd = err - last_err`, `total = okd + errd`,
achieved TPS = `okd / window` when `window > 0` else 0, failure rate =
`errd / total` when `total > 0` else 0.  Also returns the updated snapshot
`(last_ok, last_err) := (ok, err)` (line 159). -/
def sampler_window (window last_ok last_err ok err : ℚ) :
    (ℚ × ℚ) × (ℚ × ℚ) :=
  let okd := ok - last_ok
  let errd := err - last_err
  let total := okd + errd
  ((if window > 0 then okd / window else 0,
    if total > 0 then errd / total else 0),
   (ok, err))

/-- C3: for a window of length W > 0, the sampler sets achieved TPS to
okΔ/W, and failure rate to errΔ/(okΔ+errΔ) when okΔ+errΔ > 0 and to 0 when
okΔ+errΔ = 0 (a rational, never NaN), and advances the snapshot. -/
theorem sampler_window_gauges (W last_ok last_err ok err : ℚ)
    (hW : 0 < W) :
    (sampler_window W last_ok last_err ok err).1.1 = (ok - last_ok) / W ∧
    (0 < (ok - last_ok) + (err - last_err) →
      (sampler_window W last_ok last_err ok err).1.2 =
        (err - last_err) / ((ok - last_ok) + (err - last_err))) ∧
    ((ok - last_ok) + (err - last_err) = 0 →
      (sampler_window W last_ok last_err ok err).1.2 = 0) ∧
    (sampler_window W last_ok last_err ok err).2 = (ok, err) := by
  refine ⟨by simp [sampler_window, hW], ?_, ?_, rfl⟩
  · intro h
    simp [sampler_window, h]
  · intro h
    simp [sampler_window, h]

/-- Witness for C3 at the spec's example: W = 5, ok 20 → 45, err 5 → 10,
hence okΔ = 25, errΔ = 5, achieved TPS = 5 and failure rate = 5/30. -/
theorem sampler_window_gauges_witness :
    (sampler_window 5 20 5 45 10).1.1 = 5 ∧
    (sampler_window 5 20 5 45 10).1.2 = 5 / 30 ∧
    (sampler_window 5 20 5 45 10).2 = (45, 10) := by
  have h := sampler_window_gauges 5 20 5 45 10 (by norm_num)
  refine ⟨?_, ?_, h.2.2.2⟩
  · rw [h.1]; norm_num
  · rw [h.2.1 (by norm_num)]; norm_num

/-! ### MetricsSampler: chain-derived MegaGas/second (`sampler`, lines 164-180)

Each window the sampler fetches the head block; if its number exceeds the
recorded one it computes `dt = max(ts - pts, 1)` from the head and parent
timestamps, publishes `(gasUsed / dt) / 1_000_000`, and records the new
number; otherwise it republishes the previous value unchanged. -/

/-- Sampler state carried between windows for the chain-derived gauge:
`last_num` (recorded block number) and `last_mgas` (last published
MegaGas/second value). -/
structure ChainGaugeState where
  last_num : ℕ
  last_mgas : ℚ
deriving DecidableEq, Repr

/-- One chain-gauge step of the sampler (lines 165-180), given the fetched
head block's number, its timestamp `ts`, the parent's timestamp `pts`, and
the head's `gasUsed`.  Returns the new state and the value the
MegaGas/second gauge is set to this window. -/
def sampler_chain_step (st : ChainGaugeState) (num : ℕ) (ts pts : ℤ)
    (gasUsed : ℕ) : ChainGaugeState × ℚ :=
  if num > st.last_num then
    let dt : ℤ := max (ts - pts) 1
    let mgas : ℚ := ((gasUsed : ℚ) / (dt : ℚ)) / 1000000
    (⟨num, mgas⟩, mgas)
  else
    (st, st.last_mgas)

/-- C5: when the fetched head's number exceeds the recorded one, the
sampler sets the MegaGas/second gauge to
(gasUsed / max(ts - pts, 1)) / 10^6, records the new number, and the
divisor is at least 1, so the division is never by zero. -/
theorem sampler_chain_step_new_block (st : ChainGaugeState) (num : ℕ)
    (ts pts : ℤ) (gasUsed : ℕ) (h : st.last_num < num) :
    (sampler_chain_step st num ts pts gasUsed).2 =
      ((gasUsed : ℚ) / ((max (ts - pts) 1 : ℤ) : ℚ)) / 10 ^ 6 ∧
    (1 : ℤ) ≤ max (ts - pts) 1 ∧
    (sampler_chain_step st num ts pts gasUsed).1 =
      ⟨num, ((gasUsed : ℚ) / ((max (ts - pts) 1 : ℤ) : ℚ)) / 10 ^ 6⟩ := by
  refine ⟨?_, le_max_right _ _, ?_⟩ <;>
    simp [sampler_chain_step, h]<;> norm_num

/-- Witness for C5 at the spec's example: recorded number 7, new head
number 8, gasUsed = 15,000,000, head timestamp 112, parent timestamp 100,
so dt = 12 and the gauge reads 1.25. -/
theorem sampler_chain_step_new_block_witness :
    (sampler_chain_step ⟨7, 0⟩ 8 112 100 15000000).2 = 5 / 4 ∧
    (1 : ℤ) ≤ max ((112 : ℤ) - 100) 1 ∧
    (sampler_chain_step ⟨7, 0⟩ 8 112 100 15000000).1 = ⟨8, 5 / 4⟩ := by
  have h := sampler_chain_step_new_block ⟨7, 0⟩ 8 112 100 15000000 (by norm_num)
  refine ⟨?_, h.2.1, ?_⟩
  · rw [h.1]; norm_num
  · rw [h.2.2]
    norm_num

/-- C6: when the fetched head's number does not exceed the recorded one,
the sampler republishes the previously computed MegaGas/second value
unchanged and leaves its whole state — including the recorded block
number — unchanged. -/
theorem sampler_chain_step_sticky (st : ChainGaugeState) (num : ℕ)
    (ts pts : ℤ) (gasUsed : ℕ) (h : num ≤ st.last_num) :
    (sampler_chain_step st num ts pts gasUsed).2 = st.last_mgas ∧
    (sampler_chain_step st num ts pts gasUsed).1 = st := by
  constructor <;> simp [sampler_chain_step, Nat.not_lt.mpr h]

/-- Witness for C6: with recorded number 9 and last value 5/4, a head at
the same number 9 republishes 5/4 and leaves the state unchanged. -/
theorem sampler_chain_step_sticky_witness :
    (sampler_chain_step ⟨9, 5 / 4⟩ 9 130 118 21000).2 =
      (ChainGaugeState.mk 9 (5 / 4)).last_mgas ∧
    (sampler_chain_step ⟨9, 5 / 4⟩ 9 130 118 21000).1 = ⟨9, 5 / 4⟩ :=
  sampler_chain_step_sticky ⟨9, 5 / 4⟩ 9 130 118 21000 (by norm_num)

/-! ### Pacer (`rate_limiter`, lines 128-137)

`rate_limiter` computes `interval = 1/tps if tps > 0 else 0`, sets the
first absolute deadline `next_t` to the current time, and after each tick
advances `next_t += interval` — the update never reads the time at which
the tick actually fired. -/

/-- Line 129: `interval = 1.0 / tps if tps > 0 else 0.0`. -/
def rate_limiter_interval (tps : ℚ) : ℚ :=
  if tps > 0 then 1 / tps else 0

/-- Line 136: the deadline update `next_t += interval`.  The time `now` at
which the tick fired is passed in to record that the update ignores it. -/
def rate_limiter_advance (next_t _now interval : ℚ) : ℚ :=
  next_t + interval

/-- The pacer's k-th absolute deadline, starting from initial deadline
`t0` (line 130 sets `next_t` to the current time), where `fire k` is the
time the k-th tick actually fired. -/
def rate_limiter_deadline (t0 tps : ℚ) (fire : ℕ → ℚ) : ℕ → ℚ
  | 0 => t0
  | k + 1 =>
    rate_limiter_advance (rate_limiter_deadline t0 tps fire k) (fire k)
      (rate_limiter_interval tps)

/-- C4: for every target rate r > 0, the pacer's k-th deadline is the
initial deadline plus k·(1/r), for every sequence of actual firing times;
in particular two runs whose ticks fire at different (e.g. delayed) times
have identical deadline sequences, so a delayed tick pushes no later
deadline. -/
theorem rate_limiter_deadline_no_drift (t0 r : ℚ) (fire : ℕ → ℚ) (k : ℕ)
    (hr : 0 < r) :
    rate_limiter_deadline t0 r fire k = t0 + k * (1 / r) ∧
    ∀ fire' : ℕ → ℚ,
      rate_limiter_deadline t0 r fire k = rate_limiter_deadline t0 r fire' k := by
  have key : ∀ g : ℕ → ℚ, ∀ n : ℕ,
      rate_limiter_deadline t0 r g n = t0 + n * (1 / r) := by
    intro g n
    induction n with
    | zero => simp [rate_limiter_deadline]
    | succ n ih =>
      simp only [rate_limiter_deadline, rate_limiter_advance,
        rate_limiter_interval, if_pos hr, ih]
      push_cast
      ring
  exact ⟨key fire k, fun g => (key fire k).trans (key g k).symm⟩

/-- Witness for C4 at r = 2, k = 3 with ticks firing arbitrarily late
(fire n = 100·n): the third deadline is still t0 + 3·(1/2), the same as in
a run whose ticks all fire immediately. -/
theorem rate_limiter_deadline_no_drift_witness :
    rate_limiter_deadline 10 2 (fun n => 100 * n) 3 = 10 + 3 * (1 / 2) ∧
    rate_limiter_deadline 10 2 (fun n => 100 * n) 3 =
      rate_limiter_deadline 10 2 (fun _ => 0) 3 := by
  have h := rate_limiter_deadline_no_drift 10 2 (fun n => 100 * n) 3 (by norm_num)
  exact ⟨h.1, h.2 (fun _ => 0)⟩

/-! ### RpcTransport: drainable call counter (`Rpc.call` line 63,
`drain_rpc_counter` lines 80-83, `sampler` line 162)

`_rpc_counter += 1` in `call` and the body of `drain_rpc_counter`
(`v = self._rpc_counter; self._rpc_counter = 0; return v`) each contain no
`await`, so under the single-threaded asyncio event loop each is one atomic
step.  A history of the counter is any interleaving of these two atomic
operations. -/

/-- Embedding of `Rpc.drain_rpc_counter` (lines 80-83): from the current counter value,
returns the drained value and the new counter value (zero). -/
def drain_rpc_counter (c : ℕ) : ℕ × ℕ :=
  (c, 0)

/-- One atomic operation on `_rpc_counter`: the `_rpc_counter += 1` of an
`Rpc.call` invocation, or a sampler `drain_rpc_counter` invocation. -/
inductive RpcCounterOp
  | callInc
  | drain
deriving DecidableEq, Repr

/-- Run a history of atomic counter operations from counter value `c`:
returns the final counter value and the list of drained values in order. -/
def run_rpc_counter_ops : List RpcCounterOp → ℕ → ℕ × List ℕ
  | [], c => (c, [])
  | .callInc :: ops, c => run_rpc_counter_ops ops (c + 1)
  | .drain :: ops, c =>
    let d := drain_rpc_counter c
    let r := run_rpc_counter_ops ops d.2
    (r.1, d.1 :: r.2)

/-- The RPS gauge value set by `sampler` at line 162: `drain_rpc_counter() / window`. -/
def sampler_rps (drained : ℕ) (window : ℚ) : ℚ :=
  (drained : ℚ) / window

theorem run_rpc_counter_ops_append (xs ys : List RpcCounterOp) (c : ℕ) :
    run_rpc_counter_ops (xs ++ ys) c =
      ((run_rpc_counter_ops ys (run_rpc_counter_ops xs c).1).1,
        (run_rpc_counter_ops xs c).2 ++
          (run_rpc_counter_ops ys (run_rpc_counter_ops xs c).1).2) := by
  induction xs generalizing c with
  | nil => simp [run_rpc_counter_ops]
  | cons x xs ih =>
    cases x with
    | callInc =>
      simp only [List.cons_append, run_rpc_counter_ops]
      exact ih (c + 1)
    | drain =>
      simp [run_rpc_counter_ops, drain_rpc_counter, ih 0]

theorem run_rpc_counter_ops_no_drain (a : List RpcCounterOp) (c : ℕ)
    (ha : RpcCounterOp.drain ∉ a) :
    run_rpc_counter_ops a c = (c + a.count .callInc, []) := by
  induction a generalizing c with
  | nil => simp [run_rpc_counter_ops]
  | cons x a ih =>
    cases x with
    | callInc =>
      simp only [run_rpc_counter_ops]
      rw [ih c.succ (fun h => ha (List.mem_cons_of_mem _ h))]
      simp [List.count_cons]
      omega
    | drain => exact absurd (List.mem_cons_self _ _) ha

theorem run_rpc_counter_ops_conservation (ops : List RpcCounterOp) (c : ℕ) :
    (run_rpc_counter_ops ops c).1 + (run_rpc_counter_ops ops c).2.sum =
      c + ops.count .callInc := by
  induction ops generalizing c with
  | nil => simp [run_rpc_counter_ops]
  | cons x ops ih =>
    cases x with
    | callInc =>
      simp only [run_rpc_counter_ops, List.count_cons]
      rw [ih (c + 1)]
      simp
      omega
    | drain =>
      have hne : (RpcCounterOp.drain == RpcCounterOp.callInc) = false := rfl
      simp only [run_rpc_counter_ops, drain_rpc_counter, List.count_cons,
        List.sum_cons, hne, if_false, Bool.false_eq_true]
      have := ih 0
      omega

/-- C9: in every history of atomic counter operations, a drain preceded by
no other drain returns exactly the number of `call` increments before it
(and in general drains partition the increments: final counter plus all
drained values equals the total number of `call` increments — no call is
lost or counted twice); the RPS gauge for a drained value of 300 over a
window of 5 seconds is 60. -/
theorem drain_rpc_counter_exact (a b : List RpcCounterOp)
    (ha : RpcCounterOp.drain ∉ a) :
    (run_rpc_counter_ops (a ++ .drain :: b) 0).2.head? =
      some (a.count .callInc) ∧
    (run_rpc_counter_ops (a ++ .drain :: b) 0).1 +
        (run_rpc_counter_ops (a ++ .drain :: b) 0).2.sum =
      (a ++ .drain :: b).count .callInc ∧
    sampler_rps 300 5 = 60 := by
  refine ⟨?_, ?_, by norm_num [sampler_rps]⟩
  · rw [run_rpc_counter_ops_append a (.drain :: b) 0,
      run_rpc_counter_ops_no_drain a 0 ha]
    simp [run_rpc_counter_ops, drain_rpc_counter]
  · simpa using run_rpc_counter_ops_conservation (a ++ .drain :: b) 0

/-- Witness for C9: with three `call` increments before a drain and one
after, the drain returns 3, and no increment is lost or double counted. -/
theorem drain_rpc_counter_exact_witness :
    (run_rpc_counter_ops
        ([RpcCounterOp.callInc, .callInc, .callInc] ++
          RpcCounterOp.drain :: [RpcCounterOp.callInc]) 0).2.head? =
      some ([RpcCounterOp.callInc, .callInc, .callInc].count .callInc) ∧
    (run_rpc_counter_ops
          ([RpcCounterOp.callInc, .callInc, .callInc] ++
            RpcCounterOp.drain :: [RpcCounterOp.callInc]) 0).1 +
        (run_rpc_counter_ops
          ([RpcCounterOp.callInc, .callInc, .callInc] ++
            RpcCounterOp.drain :: [RpcCounterOp.callInc]) 0).2.sum =
      ([RpcCounterOp.callInc, .callInc, .callInc] ++
        RpcCounterOp.drain :: [RpcCounterOp.callInc]).count .callInc ∧
    sampler_rps 300 5 = 60 :=
  drain_rpc_counter_exact [RpcCounterOp.callInc, .callInc, .callInc]
    [RpcCounterOp.callInc] (by decide)

/-! ### Controller: preset split (`compute_mix`, `controller/main.py`
lines 88-107)

`compute_mix` clamps the total to 0, then splits it with Python's built-in
`round`, which rounds to the nearest integer and rounds exact halves to
the even neighbour (banker's rounding). -/

/-- Python's built-in `round` to an integer: nearest integer, exact halves
to the even neighbour. -/
def pyRound (q : ℚ) : ℤ :=
  let f := ⌊q⌋
  let frac := q - (f : ℚ)
  if frac < 1 / 2 then f
  else if 1 / 2 < frac then f + 1
  else if Even f then f else f + 1

/-- The per-method rates `compute_mix` returns. -/
structure Mix where
  tps : ℤ
  rps_block : ℤ
  rps_bal : ℤ
  rps_call : ℤ
deriving DecidableEq, Repr

/-- Embedding of `compute_mix(total_tps, preset)` (lines 100-107):
`t = max(float(total_tps), 0.0)`; preset `"even"` gives
`per = round(t / 5.0)` for all four rates; any other preset is the
write-heavy default `send = round(0.35 * t)`, `read = round(0.10 * t)`. -/
def compute_mix (total_tps : ℚ) (preset : String) : Mix :=
  let t := max total_tps 0
  if preset = "even" then
    let per := pyRound (t / 5)
    ⟨per, per, per, per⟩
  else
    let send := pyRound (35 / 100 * t)
    let read := pyRound (10 / 100 * t)
    ⟨send, read, read, read⟩

theorem pyRound_nonneg (q : ℚ) (h : 0 ≤ q) : 0 ≤ pyRound q := by
  have hf : (0 : ℤ) ≤ ⌊q⌋ := Int.floor_nonneg.mpr h
  simp only [pyRound]
  split_ifs <;> omega

/-- C10: for every total rate, `compute_mix` with preset "even" returns the
four equal rates round(t/5), and with any other preset (the "write"
default) returns tps = round(0.35·t) and the three read rates
round(0.10·t), where t is the total clamped at 0 and `round` is Python's
half-to-even rounding; all returned rates are nonnegative. -/
theorem compute_mix_presets (q : ℚ) (p : String) (hp : p ≠ "even") :
    compute_mix q "even" =
      ⟨pyRound (max q 0 / 5), pyRound (max q 0 / 5), pyRound (max q 0 / 5),
        pyRound (max q 0 / 5)⟩ ∧
    compute_mix q p =
      ⟨pyRound (35 / 100 * max q 0), pyRound (10 / 100 * max q 0),
        pyRound (10 / 100 * max q 0), pyRound (10 / 100 * max q 0)⟩ ∧
    (0 ≤ (compute_mix q p).tps ∧ 0 ≤ (compute_mix q p).rps_block ∧
      0 ≤ (compute_mix q p).rps_bal ∧ 0 ≤ (compute_mix q p).rps_call) ∧
    (0 ≤ (compute_mix q "even").tps ∧ 0 ≤ (compute_mix q "even").rps_block ∧
      0 ≤ (compute_mix q "even").rps_bal ∧ 0 ≤ (compute_mix q "even").rps_call) := by
  have ht : (0 : ℚ) ≤ max q 0 := le_max_right q 0
  have heven : compute_mix q "even" =
      ⟨pyRound (max q 0 / 5), pyRound (max q 0 / 5), pyRound (max q 0 / 5),
        pyRound (max q 0 / 5)⟩ := by
    simp [compute_mix]
  have hother : compute_mix q p =
      ⟨pyRound (35 / 100 * max q 0), pyRound (10 / 100 * max q 0),
        pyRound (10 / 100 * max q 0), pyRound (10 / 100 * max q 0)⟩ := by
    simp [compute_mix, hp]
  refine ⟨heven, hother, ?_, ?_⟩
  · rw [hother]
    refine ⟨?_, ?_, ?_, ?_⟩ <;> exact pyRound_nonneg _ (by positivity)
  · rw [heven]
    refine ⟨?_, ?_, ?_, ?_⟩ <;> exact pyRound_nonneg _ (by positivity)

/-- Witness for C10 at total 10 and preset "write": the even split would be
round(10/5) = 2 each, the write split is round(3.5) = 4 (half rounds to
even) and round(1) = 1 each, and all rates are nonnegative. -/
theorem compute_mix_presets_witness :
    compute_mix 10 "even" = ⟨2, 2, 2, 2⟩ ∧
    compute_mix 10 "write" = ⟨4, 1, 1, 1⟩ ∧
    0 ≤ (compute_mix 10 "write").tps := by
  have h := compute_mix_presets 10 "write" (by decide)
  refine ⟨?_, ?_, h.2.2.1.1⟩
  · rw [h.1]
    norm_num [pyRound, Mix.mk.injEq, Int.even_iff]
  · rw [h.2.1]
    norm_num [pyRound, Mix.mk.injEq, Int.even_iff]
